import Mathlib

/-!
Verification of the named string collection implemented by
`GoodPracticesExample` in `src/demo/engineering-practices-demo.py`.

Strings are modelled as `List Char`.  Python's `str.strip()` (with no
argument) is modelled by `strip`, removing the ASCII whitespace
characters from both ends; `str.lower()` is modelled by `lower`,
lowercasing ASCII letters; the substring test `a in b` is modelled by
`pyContains`.  Each method of the class is modelled as a state-passing
function returning the new state together with the method's return
value, so that absence of mutation is a provable statement.
-/

namespace Demo

/-- Python `str.isspace` on the ASCII whitespace characters relevant to
`str.strip()`: space, tab, newline, carriage return, vertical tab, form
feed. -/
def pyIsSpace (c : Char) : Bool :=
  c == ' ' || c == '\t' || c == '\n' || c == '\r' ||
    c == Char.ofNat 11 || c == Char.ofNat 12

/-- Python `item.strip()`: remove leading and trailing whitespace. -/
def strip (s : List Char) : List Char :=
  ((s.dropWhile pyIsSpace).reverse.dropWhile pyIsSpace).reverse

/-- Python `str.lower` on one character (ASCII letters). -/
def lowerChar (c : Char) : Char :=
  if 65 ≤ c.toNat ∧ c.toNat ≤ 90 then Char.ofNat (c.toNat + 32) else c

/-- Python `s.lower()`. -/
def lower (s : List Char) : List Char :=
  s.map lowerChar

/-- Does `hay` start with `needle`? Auxiliary for the substring test. -/
def headMatch : List Char → List Char → Bool
  | [], _ => true
  | _ :: _, [] => false
  | a :: as, b :: bs => a == b && headMatch as bs

/-- Python `needle in hay` on strings: contiguous substring test. -/
def pyContains (needle : List Char) : List Char → Bool
  | [] => headMatch needle []
  | h :: t => headMatch needle (h :: t) || pyContains needle t

/-- The state of a `GoodPracticesExample` object: its `name` and its
list `items` of stored strings. -/
structure GoodPracticesExample where
  name : List Char
  items : List (List Char)
deriving DecidableEq

/-- `GoodPracticesExample.__init__`: store the name, start with an
empty item list. -/
def init (name : List Char) : GoodPracticesExample :=
  { name := name, items := [] }

/-- `add_item`: reject falsy (empty) or whitespace-only input, else
append the stripped item; returns the new state and the boolean
result. -/
def add_item (self : GoodPracticesExample) (item : List Char) :
    GoodPracticesExample × Bool :=
  if item = [] ∨ strip item = [] then (self, false)
  else ({ self with items := self.items ++ [strip item] }, true)

/-- `get_items_count`: the number of stored items.  The state is
returned unchanged. -/
def get_items_count (self : GoodPracticesExample) :
    GoodPracticesExample × Nat :=
  (self, self.items.length)

/-- `find_item`: scan `items` in order, return the first item whose
lowercased form contains the lowercased search term; `none` when no
item matches.  The state is returned unchanged. -/
def find_item (self : GoodPracticesExample) (search_term : List Char) :
    GoodPracticesExample × Option (List Char) :=
  (self, self.items.find? (fun item => pyContains (lower search_term) (lower item)))

/-- The match predicate used by `find_item`. -/
def matchesTerm (term item : List Char) : Bool :=
  pyContains (lower term) (lower item)

/-- The public operations of the class, for reasoning about arbitrary
call sequences. -/
inductive Op where
  | add (item : List Char)
  | count
  | find (term : List Char)

/-- The state reached after one method call. -/
def step (self : GoodPracticesExample) : Op → GoodPracticesExample
  | .add item => (add_item self item).1
  | .count => (get_items_count self).1
  | .find t => (find_item self t).1

/-- The state reached after a sequence of method calls. -/
def run (self : GoodPracticesExample) (ops : List Op) : GoodPracticesExample :=
  ops.foldl step self

/-- The data invariant: every stored item is non-empty and equal to its
own stripped form. -/
def Invariant (self : GoodPracticesExample) : Prop :=
  ∀ i ∈ self.items, strip i = i ∧ i ≠ []

/-- Shorthand for string literals as character lists. -/
def chars (s : String) : List Char :=
  s.toList

/-! ### Helper lemmas about `strip` -/

theorem dropWhile_self (p : Char → Bool) (l : List Char) :
    (l.dropWhile p).dropWhile p = l.dropWhile p := by
  induction l with
  | nil => rfl
  | cons a t ih =>
    cases h : p a with
    | true => simp [List.dropWhile_cons, h, ih]
    | false => simp [List.dropWhile_cons, h]

theorem dropWhile_pre (p : Char → Bool) (u w : List Char)
    (h : (u ++ w).dropWhile p = u ++ w) : u.dropWhile p = u := by
  cases u with
  | nil => rfl
  | cons a t =>
    cases hpa : p a with
    | false => simp [List.dropWhile_cons, hpa]
    | true =>
      exfalso
      rw [List.cons_append, List.dropWhile_cons, if_pos hpa] at h
      have hlen : ((t ++ w).dropWhile p).length ≤ (t ++ w).length :=
        (List.dropWhile_sublist p).length_le
      have hc := congrArg List.length h
      rw [List.length_cons] at hc
      omega

theorem strip_dropWhile (s : List Char) :
    (strip s).dropWhile pyIsSpace = strip s := by
  obtain ⟨v, hv⟩ := (List.dropWhile_suffix (l := (s.dropWhile pyIsSpace).reverse) pyIsSpace)
  have ht : (s.dropWhile pyIsSpace).dropWhile pyIsSpace = s.dropWhile pyIsSpace :=
    dropWhile_self pyIsSpace s
  have hsplit : s.dropWhile pyIsSpace = strip s ++ v.reverse := by
    have h2 := congrArg List.reverse hv
    simp only [List.reverse_append, List.reverse_reverse] at h2
    rw [← h2]
    simp [strip]
  rw [hsplit] at ht
  exact dropWhile_pre pyIsSpace (strip s) v.reverse ht

theorem strip_idem (s : List Char) : strip (strip s) = strip s := by
  have h1 := strip_dropWhile s
  have h2 : (strip s).reverse.dropWhile pyIsSpace = (strip s).reverse := by
    have hrev : (strip s).reverse
        = ((s.dropWhile pyIsSpace).reverse).dropWhile pyIsSpace := by
      simp [strip]
    rw [hrev, dropWhile_self]
  show (((strip s).dropWhile pyIsSpace).reverse.dropWhile pyIsSpace).reverse = strip s
  rw [h1, h2]
  simp

theorem strip_nil : strip [] = [] := rfl

theorem strip_eq_nil_of_all_space (item : List Char)
    (h : ∀ c ∈ item, pyIsSpace c = true) : strip item = [] := by
  have hd : item.dropWhile pyIsSpace = [] := List.dropWhile_eq_nil_iff.mpr h
  simp [strip, hd]

/-! ### Helper lemmas about the operations -/

theorem add_item_of_nil (g : GoodPracticesExample) (item : List Char)
    (h : strip item = []) : add_item g item = (g, false) := by
  simp [add_item, h]

theorem add_item_of_ne (g : GoodPracticesExample) (item : List Char)
    (h : strip item ≠ []) :
    add_item g item = ({ g with items := g.items ++ [strip item] }, true) := by
  have hne : ¬(item = [] ∨ strip item = []) := by
    rintro (h0 | h0)
    · exact h (h0 ▸ strip_nil)
    · exact h h0
  simp [add_item, hne]

theorem pyContains_nil (hay : List Char) : pyContains [] hay = true := by
  cases hay with
  | nil => rfl
  | cons h t => rfl

theorem invariant_init (name : List Char) : Invariant (init name) := by
  intro i hi
  simp [init] at hi

theorem invariant_step (g : GoodPracticesExample) (op : Op)
    (h : Invariant g) : Invariant (step g op) := by
  cases op with
  | count => exact h
  | find t => exact h
  | add item =>
    by_cases hs : strip item = []
    · show Invariant (add_item g item).1
      rw [add_item_of_nil g item hs]
      exact h
    · show Invariant (add_item g item).1
      rw [add_item_of_ne g item hs]
      intro i hi
      rcases List.mem_append.mp hi with hmem | hmem
      · exact h i hmem
      · have : i = strip item := by simpa using hmem
        subst this
        exact ⟨strip_idem item, hs⟩

theorem invariant_run (g : GoodPracticesExample) (ops : List Op)
    (h : Invariant g) : Invariant (run g ops) := by
  induction ops generalizing g with
  | nil => exact h
  | cons op rest ih => exact ih (step g op) (invariant_step g op h)

theorem count_step_le (g : GoodPracticesExample) (op : Op) :
    g.items.length ≤ (step g op).items.length := by
  cases op with
  | count => exact le_refl _
  | find t => exact le_refl _
  | add item =>
    by_cases hs : strip item = []
    · show g.items.length ≤ (add_item g item).1.items.length
      rw [add_item_of_nil g item hs]
    · show g.items.length ≤ (add_item g item).1.items.length
      rw [add_item_of_ne g item hs]
      simp

theorem count_run_le (g : GoodPracticesExample) (ops : List Op) :
    g.items.length ≤ (run g ops).items.length := by
  induction ops generalizing g with
  | nil => exact le_refl _
  | cons op rest ih =>
    exact le_trans (count_step_le g op) (ih (step g op))

/-! ### Claims -/

/-- Claim C1: for every string item, `add_item` trims surrounding
whitespace; if the trimmed result is empty it returns `false` and
leaves the state unchanged; otherwise it appends exactly the trimmed
string to the end of the stored sequence and returns `true`. -/
theorem c1_add_item_trims_and_appends (g : GoodPracticesExample) (item : List Char) :
    (strip item = [] → add_item g item = (g, false)) ∧
    (strip item ≠ [] →
      add_item g item = ({ g with items := g.items ++ [strip item] }, true)) :=
  ⟨add_item_of_nil g item, add_item_of_ne g item⟩

/-- Witness for C1 at concrete inputs. -/
theorem c1_add_item_trims_and_appends_witness :
    add_item (init (chars "t")) [' '] = (init (chars "t"), false) ∧
    add_item (init (chars "t")) [' ', 'a']
      = ({ init (chars "t") with items := (init (chars "t")).items ++ [strip [' ', 'a']] }, true) :=
  ⟨(c1_add_item_trims_and_appends (init (chars "t")) [' ']).1 (by decide),
   (c1_add_item_trims_and_appends (init (chars "t")) [' ', 'a']).2 (by decide)⟩

/-- Claim C2: the invariant that every stored item equals its own
trimmed form and is non-empty holds for a freshly created collection
and after every sequence of `add`, `count` and `find` calls. -/
theorem c2_invariant_preserved (name : List Char) (ops : List Op) :
    Invariant (init name) ∧ Invariant (run (init name) ops) :=
  ⟨invariant_init name, invariant_run (init name) ops (invariant_init name)⟩

/-- Claim C3: for every string that is non-empty after trimming and
every state, `add_item` returns `true` and the item count grows by
exactly one. -/
theorem c3_add_nonempty_increments (g : GoodPracticesExample) (s : List Char)
    (h : strip s ≠ []) :
    (add_item g s).2 = true ∧
    (get_items_count (add_item g s).1).2 = (get_items_count g).2 + 1 := by
  rw [add_item_of_ne g s h]
  simp [get_items_count]

/-- Witness for C3 at a concrete input. -/
theorem c3_add_nonempty_increments_witness :
    (add_item (init (chars "t")) ['x']).2 = true ∧
    (get_items_count (add_item (init (chars "t")) ['x']).1).2
      = (get_items_count (init (chars "t"))).2 + 1 :=
  c3_add_nonempty_increments (init (chars "t")) ['x'] (by decide)

/-- Claim C4: for every state, `add_item` on the empty string, on three
spaces, and on any whitespace-only string returns `false`, leaves the
state (hence the stored sequence) unchanged, and the item count is
unchanged. -/
theorem c4_add_invalid_noop (g : GoodPracticesExample) :
    add_item g (chars "") = (g, false) ∧
    add_item g (chars "   ") = (g, false) ∧
    ∀ item : List Char, (∀ c ∈ item, pyIsSpace c = true) →
      add_item g item = (g, false) ∧
      (get_items_count (add_item g item).1).2 = (get_items_count g).2 := by
  have key : ∀ item : List Char, (∀ c ∈ item, pyIsSpace c = true) →
      add_item g item = (g, false) ∧
      (get_items_count (add_item g item).1).2 = (get_items_count g).2 := by
    intro item hws
    have hnil := add_item_of_nil g item (strip_eq_nil_of_all_space item hws)
    exact ⟨hnil, by rw [hnil]⟩
  exact ⟨(key (chars "") (by decide)).1, (key (chars "   ") (by decide)).1, key⟩

/-- Witness for C4 at a concrete state and whitespace-only input. -/
theorem c4_add_invalid_noop_witness :
    add_item (init (chars "t")) [' ', '\t'] = (init (chars "t"), false) :=
  ((c4_add_invalid_noop (init (chars "t"))).2.2 [' ', '\t'] (by decide)).1

/-- Claim C5: `find_item` returns `some r` exactly when `r` is the
first stored item, in insertion order, whose lowercased form contains
the lowercased term as a substring. -/
theorem c5_find_first_match (g : GoodPracticesExample) (term r : List Char) :
    (find_item g term).2 = some r ↔
      matchesTerm term r = true ∧
      ∃ pre post, g.items = pre ++ r :: post ∧
        ∀ x ∈ pre, matchesTerm term x = false := by
  show g.items.find? (fun item => pyContains (lower term) (lower item)) = some r ↔ _
  rw [List.find?_eq_some]
  simp [matchesTerm]

/-- Claim C6: `find_item` on an empty collection, or when no stored
item matches the term, returns `none`, which differs from `some s` for
every string `s`. -/
theorem c6_find_not_found (g : GoodPracticesExample) (term : List Char) :
    (g.items = [] → (find_item g term).2 = none) ∧
    ((∀ i ∈ g.items, matchesTerm term i = false) → (find_item g term).2 = none) ∧
    ∀ s : List Char, (none : Option (List Char)) ≠ some s := by
  refine ⟨?_, ?_, fun s h => Option.noConfusion h⟩
  · intro h
    show g.items.find? _ = none
    rw [h]
    rfl
  · intro h
    show g.items.find? (fun item => pyContains (lower term) (lower item)) = none
    rw [List.find?_eq_none]
    intro x hx
    simpa [matchesTerm] using h x hx

/-- Claim C7: from a freshly created collection, after
`add_item "hello world"` succeeds, `find_item "world"` and
`find_item "WORLD"` both return `"hello world"`. -/
theorem c7_hello_world (name : List Char) :
    (add_item (init name) (chars "hello world")).2 = true ∧
    (find_item (add_item (init name) (chars "hello world")).1 (chars "world")).2
      = some (chars "hello world") ∧
    (find_item (add_item (init name) (chars "hello world")).1 (chars "WORLD")).2
      = some (chars "hello world") := by
  have h := add_item_of_ne (init name) (chars "hello world") (by decide)
  refine ⟨by rw [h], ?_, ?_⟩
  · rw [h]
    show (([] : List (List Char)) ++ [strip (chars "hello world")]).find?
        (fun item => pyContains (lower (chars "world")) (lower item))
      = some (chars "hello world")
    decide
  · rw [h]
    show (([] : List (List Char)) ++ [strip (chars "hello world")]).find?
        (fun item => pyContains (lower (chars "WORLD")) (lower item))
      = some (chars "hello world")
    decide

/-- Claim C8: `find_item` and `get_items_count` never mutate the
collection: the state (its name and its item list) after the call is
the state before it. -/
theorem c8_no_mutation (g : GoodPracticesExample) (term : List Char) :
    (find_item g term).1 = g ∧
    (find_item g term).1.name = g.name ∧
    (find_item g term).1.items = g.items ∧
    (get_items_count g).1 = g :=
  ⟨rfl, rfl, rfl, rfl⟩

/-- Claim C9: a fresh collection has count zero, and the count never
decreases, neither across one operation nor across any sequence of
operations. -/
theorem c9_count_monotone (name : List Char) (g : GoodPracticesExample)
    (op : Op) (ops : List Op) :
    (get_items_count (init name)).2 = 0 ∧
    (get_items_count g).2 ≤ (get_items_count (step g op)).2 ∧
    (get_items_count g).2 ≤ (get_items_count (run g ops)).2 :=
  ⟨rfl, count_step_le g op, count_run_le g ops⟩

/-- Claim C10: on a non-empty collection `find_item` with the empty
term returns the earliest-inserted stored item; only on an empty
collection does it return `none`. -/
theorem c10_find_empty_term (g : GoodPracticesExample) :
    (g.items = [] → (find_item g []).2 = none) ∧
    ∀ x rest, g.items = x :: rest → (find_item g []).2 = some x := by
  constructor
  · intro h
    show g.items.find? _ = none
    rw [h]
    rfl
  · intro x rest h
    show g.items.find? (fun item => pyContains (lower []) (lower item)) = some x
    rw [h, List.find?_cons_of_pos]
    exact pyContains_nil (lower x)

/-- Witness for C10 on an empty and a one-element collection. -/
theorem c10_find_empty_term_witness :
    (find_item (init (chars "t")) []).2 = none ∧
    (find_item { name := chars "t", items := [chars "a"] } []).2 = some (chars "a") :=
  ⟨(c10_find_empty_term (init (chars "t"))).1 rfl,
   (c10_find_empty_term { name := chars "t", items := [chars "a"] }).2 (chars "a") [] rfl⟩

/-- Witness for C5: on a one-element collection a case-insensitive
match is reported with an empty non-matching prefix. -/
theorem c5_find_first_match_witness :
    (find_item { name := chars "t", items := [chars "ab"] } (chars "B")).2
      = some (chars "ab") :=
  (c5_find_first_match { name := chars "t", items := [chars "ab"] }
      (chars "B") (chars "ab")).mpr
    ⟨by decide, [], [], rfl, by simp⟩

/-- Witness for C6 on an empty collection and on a collection with no
matching item. -/
theorem c6_find_not_found_witness :
    (find_item (init (chars "t")) (chars "q")).2 = none ∧
    (find_item { name := chars "t", items := [chars "ab"] } (chars "q")).2 = none :=
  ⟨(c6_find_not_found (init (chars "t")) (chars "q")).1 rfl,
   (c6_find_not_found { name := chars "t", items := [chars "ab"] } (chars "q")).2.1
     (by decide)⟩
